import Mathlib

/-!
# Shallow embedding of `src/server.py`

The server keeps two module-level Python dicts:

* `clients  : {client_id ↦ {ip, last_seen, command_queue, results, streaming, chat?}}`
* `streaming_clients : {client_id ↦ {last_frame?, frame_time?}}`

Python dicts preserve insertion order and `admin_response` iterates over
`clients.items()` in that order, so both dicts are embedded as
insertion-ordered association lists with first-match lookup.  Updating an
existing key keeps its position (as CPython does); inserting a new key
appends at the tail.

Time (`time.time()`) is passed to each operation as a `Nat` parameter
`now`; freshly generated identifiers (`str(uuid.uuid4())[:8]`) are passed
as explicit parameters, since they are external nondeterminism.  A JSON
field that may be absent or empty (`data.get('id')` followed by
`if not client_id`) is modelled as a `String` where `""` stands for the
falsy cases (absent, `None`, or empty), which the code treats alike.
Byte strings are `List Nat`.
-/

namespace Server

/-- First-match lookup in an insertion-ordered association list
(Python `d[k]` / `k in d`). -/
def alookup {β : Type} (k : String) : List (String × β) → Option β
  | [] => none
  | (k', v) :: rest => if k' = k then some v else alookup k rest

/-- `d[k] = v`: update in place if the key is present (keeping its
position), otherwise append it at the tail, as a Python dict does. -/
def aset {β : Type} (k : String) (v : β) : List (String × β) → List (String × β)
  | [] => [(k, v)]
  | (k', v') :: rest => if k' = k then (k', v) :: rest else (k', v') :: aset k v rest

/-- `del d[k]`: remove the (first) binding of `k`. -/
def aerase {β : Type} (k : String) : List (String × β) → List (String × β)
  | [] => []
  | (k', v') :: rest => if k' = k then rest else (k', v') :: aerase k rest

/-- One chat message, as built by `chat_send`. -/
structure Msg where
  sender : String
  message : String
  timestamp : Nat
deriving Repr, DecidableEq

/-- One queued command, as built by `admin_command` / `chat_send`. -/
structure Command where
  id : String
  type : String
  params : String
deriving Repr, DecidableEq

/-- One entry of the `clients` dict.  The Python dict only grows a
`'chat'` key on first use, and every reader goes through
`.get('chat', [])`, so the chat log is embedded as a list that starts
empty — observationally the same. -/
structure Session where
  ip : String
  last_seen : Nat
  command_queue : List Command
  results : List (String × String)
  streaming : Bool
  chat : List Msg
deriving Repr, DecidableEq

/-- One entry of the `streaming_clients` dict.  The code creates it as an
empty dict `{}` and reads the frame with `.get('last_frame')`, so an
absent frame is `none` and an absent `frame_time` is modelled as `0`. -/
structure StreamEntry where
  last_frame : Option (List Nat)
  frame_time : Nat
deriving Repr, DecidableEq

/-- The whole module-level mutable state of `server.py`. -/
structure ServerState where
  clients : List (String × Session)
  streaming_clients : List (String × StreamEntry)
deriving Repr, DecidableEq

/-- The empty state at interpreter start-up. -/
def initState : ServerState := ⟨[], []⟩

/-- `register` (`/api/register`): if the requested id is truthy and names
a live client, keep it, else use the freshly generated one; then
unconditionally rebuild `clients[client_id]` as a brand-new record with
empty queue/results, `streaming = False` (and hence no chat log). -/
def register (requestedId public_ip freshId : String) (now : Nat)
    (s : ServerState) : String × ServerState :=
  let client_id :=
    if requestedId = "" then freshId
    else if (alookup requestedId s.clients).isSome then requestedId
    else freshId
  let newSession : Session :=
    { ip := public_ip, last_seen := now, command_queue := [],
      results := [], streaming := false, chat := [] }
  (client_id, { s with clients := aset client_id newSession s.clients })

/-- Outcome of `/api/poll`. -/
inductive PollResult where
  | unknown
  | command (c : Command)
  | noCommand
deriving Repr, DecidableEq

/-- `poll` (`/api/poll`): 404 for a falsy or unknown id; otherwise
refresh `last_seen` to `now` and pop the head of the queue if any. -/
def poll (client_id : String) (now : Nat) (s : ServerState) :
    PollResult × ServerState :=
  if client_id = "" then (.unknown, s)
  else
    match alookup client_id s.clients with
    | none => (.unknown, s)
    | some sess =>
      match sess.command_queue with
      | [] =>
        let sess' : Session := { sess with last_seen := now }
        (.noCommand, { s with clients := aset client_id sess' s.clients })
      | c :: rest =>
        let sess' : Session := { sess with last_seen := now, command_queue := rest }
        (.command c, { s with clients := aset client_id sess' s.clients })

/-- Outcome of a simple ack/404 endpoint. -/
inductive Ack where
  | ok
  | unknown
deriving Repr, DecidableEq

/-- `result` (`/api/result`): 404 for a falsy or unknown id; if `cmd_id`
is truthy, store `output` under it (overwriting any prior entry).  Note:
this endpoint does NOT touch `last_seen`. -/
def reportResult (client_id cmd_id output : String) (s : ServerState) :
    Ack × ServerState :=
  if client_id = "" then (.unknown, s)
  else
    match alookup client_id s.clients with
    | none => (.unknown, s)
    | some sess =>
      if cmd_id = "" then (.ok, s)
      else
        let sess' : Session := { sess with results := aset cmd_id output sess.results }
        (.ok, { s with clients := aset client_id sess' s.clients })

/-- Outcome of `/api/upload`. -/
inductive UploadResult where
  | unknown
  | noFilePart
  | noSelectedFile
  | frameReceived
  | uploaded (filename : String)
  | serverError
deriving Repr, DecidableEq

/-- `upload_file` (`/api/upload`): the `'ADMIN'` sentinel bypasses the
session check; a missing file part or empty filename is rejected before
any state change; a stream frame is stored in `streaming_clients`
(creating the entry if absent); a regular upload stores a
`FILE_UPLOADED:`-marker result when `cmd_id` is truthy.  `hasFile`
models `'file' in request.files`; the saved name
`f"\x7bclient_id\x7d_\x7bint(time.time())\x7d_\x7bfile.filename\x7d"` is
embedded with `secure_filename` as the identity (the sanitizer is an
external collaborator).  With `client_id = 'ADMIN'` and a truthy
`cmd_id`, `clients['ADMIN']` normally raises `KeyError`, caught by the
handler's `except` into a 500 response.  Note: `last_seen` is never
touched here. -/
def upload_file (client_id cmd_id : String) (is_stream_frame hasFile : Bool)
    (filename : String) (content : List Nat) (now : Nat) (s : ServerState) :
    UploadResult × ServerState :=
  if client_id ≠ "ADMIN" ∧ (client_id = "" ∨ (alookup client_id s.clients).isNone) then
    (.unknown, s)
  else if ¬ hasFile then (.noFilePart, s)
  else if filename = "" then (.noSelectedFile, s)
  else if is_stream_frame then
    let entry : StreamEntry :=
      (alookup client_id s.streaming_clients).getD { last_frame := none, frame_time := 0 }
    let entry' : StreamEntry := { entry with last_frame := some content, frame_time := now }
    (.frameReceived, { s with streaming_clients := aset client_id entry' s.streaming_clients })
  else
    let stored := client_id ++ "_" ++ toString now ++ "_" ++ filename
    if cmd_id = "" then (.uploaded stored, s)
    else
      match alookup client_id s.clients with
      | none => (.serverError, s)
      | some sess =>
        let sess' : Session :=
          { sess with results := aset cmd_id ("FILE_UPLOADED:" ++ stored) sess.results }
        (.uploaded stored, { s with clients := aset client_id sess' s.clients })

/-- `chat_send` (`/api/chat/send`): 404 for a falsy or unknown id;
append the message to the chat log; if the sender is `'admin'`,
additionally enqueue a `chat_msg` command carrying the text.  The fresh
command id is a parameter.  Note: `last_seen` is never touched here. -/
def chat_send (client_id sender message freshCmdId : String) (now : Nat)
    (s : ServerState) : Ack × ServerState :=
  if client_id = "" then (.unknown, s)
  else
    match alookup client_id s.clients with
    | none => (.unknown, s)
    | some sess =>
      let msg_obj : Msg := { sender := sender, message := message, timestamp := now }
      let sess1 : Session := { sess with chat := sess.chat ++ [msg_obj] }
      let sess2 : Session :=
        if sender = "admin" then
          let cmd : Command := { id := freshCmdId, type := "chat_msg", params := message }
          { sess1 with command_queue := sess1.command_queue ++ [cmd] }
        else sess1
      (.ok, { s with clients := aset client_id sess2 s.clients })

/-- `chat_history` (`/api/chat/history/<client_id>`): the full log for a
live client, the empty list (with a 200, never an error) otherwise.  A
pure read — the handler performs no assignment. -/
def chat_history (client_id : String) (s : ServerState) : List Msg :=
  match alookup client_id s.clients with
  | some sess => sess.chat
  | none => []

/-- `clean_clients`: collect every client with `now - last_seen > 60`
into `dead`, then delete each from `clients` and (when present) from
`streaming_clients`. -/
def clean_clients (now : Nat) (s : ServerState) : ServerState :=
  let dead := ((s.clients.filter fun p => 60 < now - p.2.last_seen).map Prod.fst)
  { clients := s.clients.filter fun p => ¬ 60 < now - p.2.last_seen,
    streaming_clients := s.streaming_clients.filter fun p => p.1 ∉ dead }

/-- `admin_list` (`/admin/list`): sweep first, then report every live
client as `(id, ip, seconds since last seen)`. -/
def admin_list (now : Nat) (s : ServerState) :
    List (String × String × Nat) × ServerState :=
  let s' := clean_clients now s
  ((s'.clients.map fun p => (p.1, p.2.ip, now - p.2.last_seen)), s')

/-- Outcome of `/admin/command`. -/
inductive CmdAck where
  | notFound
  | queued (cmd_id : String)
deriving Repr, DecidableEq

/-- `admin_command` (`/admin/command`): 404 for a falsy or unknown
target; build the command with a fresh id; `start_stream` flips the
session's `streaming` flag on and creates the (empty) streaming entry if
absent, `stop_stream` flips it off and deletes the entry; finally append
the command to the queue — the streaming side effects happen at enqueue
time. -/
def admin_command (target_id cmd_type cmd_params freshCmdId : String)
    (s : ServerState) : CmdAck × ServerState :=
  if target_id = "" then (.notFound, s)
  else
    match alookup target_id s.clients with
    | none => (.notFound, s)
    | some sess =>
      let command : Command := { id := freshCmdId, type := cmd_type, params := cmd_params }
      let sess1 : Session :=
        if cmd_type = "start_stream" then { sess with streaming := true }
        else if cmd_type = "stop_stream" then { sess with streaming := false }
        else sess
      let streaming1 : List (String × StreamEntry) :=
        if cmd_type = "start_stream" then
          if (alookup target_id s.streaming_clients).isSome then s.streaming_clients
          else aset target_id { last_frame := none, frame_time := 0 } s.streaming_clients
        else if cmd_type = "stop_stream" then aerase target_id s.streaming_clients
        else s.streaming_clients
      let sess2 : Session := { sess1 with command_queue := sess1.command_queue ++ [command] }
      (.queued freshCmdId,
        { clients := aset target_id sess2 s.clients, streaming_clients := streaming1 })

/-- Outcome of `/admin/response/<cmd_id>`. -/
inductive ConsumeResult where
  | done (output : String)
  | pending
deriving Repr, DecidableEq

/-- The scan of `admin_response`: walk the clients in insertion order;
at the first client whose `results` holds `cmd_id`, pop that result and
stop. -/
def consumeScan (cmd_id : String) :
    List (String × Session) → Option (String × List (String × Session))
  | [] => none
  | (cid, sess) :: rest =>
    match alookup cmd_id sess.results with
    | some out =>
      let sess' : Session := { sess with results := aerase cmd_id sess.results }
      some (out, (cid, sess') :: rest)
    | none =>
      match consumeScan cmd_id rest with
      | some (out, rest') => some (out, (cid, sess) :: rest')
      | none => none

/-- `admin_response` (`/admin/response/<cmd_id>`): search all clients for
this `cmd_id`, consume (pop) the first match, else report pending. -/
def admin_response (cmd_id : String) (s : ServerState) :
    ConsumeResult × ServerState :=
  match consumeScan cmd_id s.clients with
  | some (out, clients') => (.done out, { s with clients := clients' })
  | none => (.pending, s)

/-- `admin_stream_frame` (`/admin/stream_frame/<client_id>`): return the
cached frame bytes, or a 404 when the client has no streaming entry, the
entry has no frame, or the frame is empty — `if frame_data:` is falsy
for the empty byte string `b''`. -/
def admin_stream_frame (client_id : String) (s : ServerState) : Option (List Nat) :=
  match alookup client_id s.streaming_clients with
  | some entry =>
    match entry.last_frame with
    | some data => if data = [] then none else some data
    | none => none
  | none => none

/-- `admin_stream_status` (`/admin/stream_status/<client_id>`):
`clients[client_id].get('streaming', False)`, and `False` for an unknown
client. -/
def admin_stream_status (client_id : String) (s : ServerState) : Bool :=
  match alookup client_id s.clients with
  | some sess => sess.streaming
  | none => false

/-- A controller-side enqueue request: fresh command id, type, params. -/
structure CmdSpec where
  freshId : String
  type : String
  params : String
deriving Repr, DecidableEq

/-- The command `admin_command` builds from a `CmdSpec`. -/
def CmdSpec.toCommand (c : CmdSpec) : Command :=
  { id := c.freshId, type := c.type, params := c.params }

/-- A sequence of `admin_command` calls against one target. -/
def enqueueAll (target_id : String) (specs : List CmdSpec) (s : ServerState) :
    ServerState :=
  List.foldl (fun st c => (admin_command target_id c.type c.params c.freshId st).2) s specs

/-- `n` successive `poll` calls; collects the returned commands until a
poll yields no command. -/
def drainPolls (client_id : String) (now : Nat) :
    Nat → ServerState → List Command × ServerState
  | 0, s => ([], s)
  | n + 1, s =>
    match poll client_id now s with
    | (.command c, s') =>
      let r := drainPolls client_id now n s'
      (c :: r.1, r.2)
    | (_, s') => ([], s')

/-! ## Association-list lemmas -/

theorem alookup_aset_self {β : Type} (k : String) (v : β) (l : List (String × β)) :
    alookup k (aset k v l) = some v := by
  induction l with
  | nil => simp [aset, alookup]
  | cons p rest ih =>
    obtain ⟨k', v'⟩ := p
    by_cases h : k' = k <;> simp [aset, alookup, h, ih]

theorem alookup_aset_ne {β : Type} {k k' : String} (v : β) (l : List (String × β))
    (h : k' ≠ k) : alookup k (aset k' v l) = alookup k l := by
  induction l with
  | nil => simp [aset, alookup, h]
  | cons p rest ih =>
    obtain ⟨k'', v''⟩ := p
    by_cases h2 : k'' = k'
    · subst h2; simp [aset, alookup, h]
    · by_cases h3 : k'' = k <;> simp [aset, alookup, h2, h3, Ne.symm h, ih]

theorem aset_map_fst {β : Type} {k : String} (v : β) {l : List (String × β)}
    (h : (alookup k l).isSome) : (aset k v l).map Prod.fst = l.map Prod.fst := by
  induction l with
  | nil => simp [alookup] at h
  | cons p rest ih =>
    obtain ⟨k', v'⟩ := p
    by_cases h2 : k' = k
    · simp [aset, h2]
    · simp [alookup, h2] at h
      simp [aset, h2, ih h]

theorem aset_of_alookup_none {β : Type} {k : String} (v : β) {l : List (String × β)}
    (h : alookup k l = none) : aset k v l = l ++ [(k, v)] := by
  induction l with
  | nil => simp [aset]
  | cons p rest ih =>
    obtain ⟨k', v'⟩ := p
    by_cases h2 : k' = k
    · simp [alookup, h2] at h
    · simp [alookup, h2] at h
      simp [aset, h2, ih h]

theorem alookup_eq_none_iff {β : Type} (k : String) (l : List (String × β)) :
    alookup k l = none ↔ ∀ p ∈ l, p.1 ≠ k := by
  induction l with
  | nil => simp [alookup]
  | cons p rest ih =>
    obtain ⟨k', v'⟩ := p
    by_cases h : k' = k <;> simp [alookup, h, ih]

theorem alookup_mem {β : Type} {k : String} {l : List (String × β)} {v : β}
    (h : alookup k l = some v) : (k, v) ∈ l := by
  induction l with
  | nil => simp [alookup] at h
  | cons p rest ih =>
    obtain ⟨k', v'⟩ := p
    by_cases h2 : k' = k
    · subst h2; simp [alookup] at h; simp [h]
    · simp [alookup, h2] at h
      exact List.mem_cons_of_mem _ (ih h)

theorem nodup_key_eq {β : Type} {l : List (String × β)}
    (nd : (l.map Prod.fst).Nodup) {p q : String × β}
    (hp : p ∈ l) (hq : q ∈ l) (hk : p.1 = q.1) : p = q := by
  induction l with
  | nil => simp at hp
  | cons x rest ih =>
    simp only [List.map_cons, List.nodup_cons] at nd
    rcases List.mem_cons.mp hp with hp1 | hp1 <;>
      rcases List.mem_cons.mp hq with hq1 | hq1
    · rw [hp1, hq1]
    · exact absurd (hk ▸ (List.mem_map_of_mem Prod.fst hq1)) (hp1 ▸ nd.1)
    · exact absurd (hk ▸ (List.mem_map_of_mem Prod.fst hp1)) (hq1 ▸ nd.1)
    · exact ih nd.2 hp1 hq1

theorem alookup_aerase_self {β : Type} (k : String) {l : List (String × β)}
    (nd : (l.map Prod.fst).Nodup) : alookup k (aerase k l) = none := by
  induction l with
  | nil => simp [aerase, alookup]
  | cons p rest ih =>
    obtain ⟨k', v'⟩ := p
    simp only [List.map_cons, List.nodup_cons] at nd
    by_cases h : k' = k
    · subst h
      simp only [aerase, if_pos rfl]
      rw [alookup_eq_none_iff]
      intro q hq hqk
      exact nd.1 (hqk ▸ List.mem_map_of_mem Prod.fst hq)
    · simp [aerase, alookup, h, ih nd.2]

theorem alookup_aerase_ne {β : Type} {k k' : String} (l : List (String × β))
    (h : k' ≠ k) : alookup k (aerase k' l) = alookup k l := by
  induction l with
  | nil => simp [aerase]
  | cons p rest ih =>
    obtain ⟨k'', v''⟩ := p
    by_cases h2 : k'' = k'
    · subst h2; simp [aerase, alookup, h]
    · by_cases h3 : k'' = k <;> simp [aerase, alookup, h2, h3, Ne.symm h, ih]

theorem alookup_filter_of_some {β : Type} {k : String} {l : List (String × β)} {v : β}
    (q : String × β → Bool) (nd : (l.map Prod.fst).Nodup)
    (h : alookup k l = some v) :
    alookup k (l.filter q) = if q (k, v) then some v else none := by
  induction l with
  | nil => simp [alookup] at h
  | cons p rest ih =>
    obtain ⟨k', v'⟩ := p
    simp only [List.map_cons, List.nodup_cons] at nd
    by_cases h2 : k' = k
    · subst h2
      simp [alookup] at h
      subst h
      by_cases hq : q (k', v')
      · simp [List.filter, hq, alookup]
      · have hnone : alookup k' (rest.filter q) = none := by
          rw [alookup_eq_none_iff]
          intro p hp hpk
          exact nd.1 (hpk ▸ List.mem_map_of_mem Prod.fst (List.mem_of_mem_filter hp))
        simp [List.filter, hq, hnone]
    · simp only [alookup, if_neg h2] at h
      by_cases hq : q (k', v') <;> simp [List.filter, hq, alookup, h2, ih nd.2 h]

/-! ## Operation-level lemmas -/

/-- One `admin_command` call on a live target appends exactly the built
command at the tail of that target's queue and leaves its other
per-session data alone (only the `streaming` flag may change). -/
theorem admin_command_queue (cid t p f : String) {s : ServerState} {sess : Session}
    (h0 : cid ≠ "") (h : alookup cid s.clients = some sess) :
    ∃ sess', alookup cid ((admin_command cid t p f s).2).clients = some sess' ∧
      sess'.command_queue = sess.command_queue ++ [⟨f, t, p⟩] ∧
      sess'.results = sess.results ∧ sess'.chat = sess.chat ∧
      sess'.last_seen = sess.last_seen ∧ sess'.ip = sess.ip := by
  simp only [admin_command, if_neg h0, h]
  refine ⟨_, alookup_aset_self _ _ _, ?_⟩
  by_cases h1 : t = "start_stream" <;> by_cases h2 : t = "stop_stream" <;>
    simp [h1, h2]

/-- Folding a list of `admin_command` calls on a live target appends the
corresponding commands in order. -/
theorem enqueueAll_queue {cid : String} (h0 : cid ≠ "") (specs : List CmdSpec) :
    ∀ (s : ServerState) (sess : Session), alookup cid s.clients = some sess →
    ∃ sess', alookup cid (enqueueAll cid specs s).clients = some sess' ∧
      sess'.command_queue = sess.command_queue ++ specs.map CmdSpec.toCommand := by
  induction specs with
  | nil =>
    intro s sess h
    exact ⟨sess, by simpa [enqueueAll] using h, by simp⟩
  | cons c cs ih =>
    intro s sess h
    obtain ⟨sess1, h1, hq1, -⟩ := admin_command_queue cid c.type c.params c.freshId h0 h
    obtain ⟨sess2, h2, hq2⟩ := ih _ _ h1
    refine ⟨sess2, by simpa [enqueueAll, List.foldl] using h2, ?_⟩
    rw [hq2, hq1]
    simp [CmdSpec.toCommand]

/-- Polling a live session whose queue has `n` commands `n` times
returns exactly those commands, in queue order. -/
theorem drainPolls_drains (cid : String) (now : Nat) (h0 : cid ≠ "") :
    ∀ (q : List Command) (s : ServerState) (sess : Session),
      alookup cid s.clients = some sess → sess.command_queue = q →
      (drainPolls cid now q.length s).1 = q := by
  intro q
  induction q with
  | nil =>
    intro s sess h hq
    simp [drainPolls]
  | cons c rest ih =>
    intro s sess h hq
    have hpoll : poll cid now s =
        (.command c,
          ⟨aset cid ⟨sess.ip, now, rest, sess.results, sess.streaming, sess.chat⟩ s.clients,
           s.streaming_clients⟩) := by
      simp [poll, h0, h, hq]
    have hnext : alookup cid
        (aset cid ⟨sess.ip, now, rest, sess.results, sess.streaming, sess.chat⟩ s.clients) =
        some ⟨sess.ip, now, rest, sess.results, sess.streaming, sess.chat⟩ :=
      alookup_aset_self _ _ _
    simp only [List.length_cons, drainPolls, hpoll]
    rw [ih ⟨aset cid ⟨sess.ip, now, rest, sess.results, sess.streaming, sess.chat⟩ s.clients,
      s.streaming_clients⟩ ⟨sess.ip, now, rest, sess.results, sess.streaming, sess.chat⟩ hnext rfl]

/-- `consumeScan` misses when no client holds the command id. -/
theorem consumeScan_eq_none {cmd : String} :
    ∀ l : List (String × Session),
      (∀ p ∈ l, alookup cmd p.2.results = none) → consumeScan cmd l = none := by
  intro l
  induction l with
  | nil => intro _; simp [consumeScan]
  | cons p rest ih =>
    intro h
    obtain ⟨cid, sess⟩ := p
    have h1 := h (cid, sess) (List.mem_cons_self _ _)
    simp only [consumeScan, h1]
    rw [ih fun p hp => h p (List.mem_cons_of_mem _ hp)]

/-- `consumeScan` pops the result of the first client (in registration
order) that holds the command id and leaves everything else in place. -/
theorem consumeScan_split {cmd out : String} (cid : String) {sess : Session}
    (l1 l2 : List (String × Session))
    (h1 : ∀ p ∈ l1, alookup cmd p.2.results = none)
    (hres : alookup cmd sess.results = some out) :
    consumeScan cmd (l1 ++ (cid, sess) :: l2) =
      some (out, l1 ++ (cid, { sess with results := aerase cmd sess.results }) :: l2) := by
  induction l1 with
  | nil => simp [consumeScan, hres]
  | cons p rest ih =>
    obtain ⟨cid', sess'⟩ := p
    have hp := h1 (cid', sess') (List.mem_cons_self _ _)
    simp only [List.cons_append, consumeScan, hp, List.append_eq]
    rw [ih fun p hp2 => h1 p (List.mem_cons_of_mem _ hp2)]

/-! ## Claims -/

/-- C1 (amended): a register call whose requested id names a live
session returns that same identifier and creates no second session
(the set of live ids is unchanged), records the reported address and
the current time — but it does NOT leave the session's other state
alone: the session record is rebuilt from scratch, so its pending
command queue, stored results and chat log become empty and its
streaming flag false.  A register call with an unknown or absent
requested id (given a fresh id not already live) creates exactly one
new session, appended with empty queue/results/chat and streaming
disabled.  Neither case touches `streaming_clients`. -/
theorem register_semantics :
    (∀ (rid ip fid : String) (now : Nat) (s : ServerState) (sess : Session),
      rid ≠ "" → alookup rid s.clients = some sess →
      (register rid ip fid now s).1 = rid ∧
      ((register rid ip fid now s).2).clients.map Prod.fst = s.clients.map Prod.fst ∧
      alookup rid ((register rid ip fid now s).2).clients =
        some ⟨ip, now, [], [], false, []⟩ ∧
      ((register rid ip fid now s).2).streaming_clients = s.streaming_clients) ∧
    (∀ (rid ip fid : String) (now : Nat) (s : ServerState),
      (rid = "" ∨ alookup rid s.clients = none) → alookup fid s.clients = none →
      (register rid ip fid now s).1 = fid ∧
      ((register rid ip fid now s).2).clients =
        s.clients ++ [(fid, ⟨ip, now, [], [], false, []⟩)] ∧
      ((register rid ip fid now s).2).streaming_clients = s.streaming_clients) := by
  constructor
  · intro rid ip fid now s sess h0 h
    refine ⟨by simp [register, h0, h], ?_, ?_, rfl⟩
    · simp only [register, if_neg h0, h, Option.isSome_some, if_pos]
      exact aset_map_fst _ (by rw [h]; rfl)
    · simp only [register, if_neg h0, h, Option.isSome_some, if_pos]
      exact alookup_aset_self _ _ _
  · intro rid ip fid now s hr hf
    have hid : (if rid = "" then fid
        else if (alookup rid s.clients).isSome then rid else fid) = fid := by
      rcases hr with hr | hr
      · simp [hr]
      · simp [hr]
    refine ⟨by simp [register, hid], ?_, rfl⟩
    simp only [register, hid]
    exact aset_of_alookup_none _ hf

/-- C1, witness for `register_semantics`: a concrete re-registration of
the live id `"a"` keeps the id, and a fresh registration returns the
freshly generated id. -/
theorem register_semantics_witness :
    (register "a" "ip2" "zz" 7 (register "" "ip" "a" 0 initState).2).1 = "a" ∧
    (register "nope" "ip" "b" 3 initState).1 = "b" := by
  refine ⟨(register_semantics.1 "a" "ip2" "zz" 7 (register "" "ip" "a" 0 initState).2
    ⟨"ip", 0, [], [], false, []⟩ (by decide) (by decide)).1, ?_⟩
  exact (register_semantics.2 "nope" "ip" "b" 3 initState (Or.inr (by decide)) (by decide)).1

/-- C1, counterexample: the claim says re-registering a live id leaves
its pending command queue unchanged; in the code the session record is
rebuilt, so a queue holding one command before re-registration is empty
afterwards. -/
theorem register_resets_state_cex :
    ((alookup "a" ((admin_command "a" "shell" "whoami" "c1"
        ((register "" "ip" "a" 0 initState).2)).2).clients).map Session.command_queue =
      some [⟨"c1", "shell", "whoami"⟩]) ∧
    ((alookup "a" ((register "a" "ip2" "f" 1 ((admin_command "a" "shell" "whoami" "c1"
        ((register "" "ip" "a" 0 initState).2)).2)).2).clients).map Session.command_queue =
      some []) := by
  decide

/-- C2 (amended): `poll` on a live session refreshes its
`last_seen` heartbeat to the current time, and `poll`, `reportResult`
and `sendChat` fail with the unknown-session signal when the id names no
live session, as does `uploadBlob` for any id other than the `'ADMIN'`
sentinel; but `reportResult`, `sendChat` and `uploadBlob` do NOT refresh
the heartbeat of a live session — only `poll` does. -/
theorem heartbeat_semantics :
    (∀ (cid : String) (now : Nat) (s : ServerState) (sess : Session),
      cid ≠ "" → alookup cid s.clients = some sess →
      ∃ sess', alookup cid ((poll cid now s).2).clients = some sess' ∧
        sess'.last_seen = now) ∧
    (∀ (cid : String) (now : Nat) (s : ServerState),
      alookup cid s.clients = none →
      (poll cid now s).1 = .unknown ∧ (poll cid now s).2 = s) ∧
    (∀ (cid cmd out : String) (s : ServerState),
      alookup cid s.clients = none →
      (reportResult cid cmd out s).1 = .unknown ∧ (reportResult cid cmd out s).2 = s) ∧
    (∀ (cid sender msg fid : String) (now : Nat) (s : ServerState),
      alookup cid s.clients = none →
      (chat_send cid sender msg fid now s).1 = .unknown) ∧
    (∀ (cid cmd : String) (isf hf : Bool) (fn : String) (b : List Nat) (now : Nat)
        (s : ServerState),
      cid ≠ "ADMIN" → alookup cid s.clients = none →
      (upload_file cid cmd isf hf fn b now s).1 = .unknown) ∧
    (∀ (cid cmd out : String) (s : ServerState) (sess : Session),
      cid ≠ "" → alookup cid s.clients = some sess →
      ∃ sess', alookup cid ((reportResult cid cmd out s).2).clients = some sess' ∧
        sess'.last_seen = sess.last_seen) ∧
    (∀ (cid sender msg fid : String) (now : Nat) (s : ServerState) (sess : Session),
      cid ≠ "" → alookup cid s.clients = some sess →
      ∃ sess', alookup cid ((chat_send cid sender msg fid now s).2).clients = some sess' ∧
        sess'.last_seen = sess.last_seen) ∧
    (∀ (cid cmd : String) (isf hf : Bool) (fn : String) (b : List Nat) (now : Nat)
        (s : ServerState) (sess : Session),
      alookup cid s.clients = some sess →
      ∃ sess', alookup cid ((upload_file cid cmd isf hf fn b now s).2).clients = some sess' ∧
        sess'.last_seen = sess.last_seen) := by
  refine ⟨?_, ?_, ?_, ?_, ?_, ?_, ?_, ?_⟩
  · intro cid now s sess h0 h
    rcases hq : sess.command_queue with - | ⟨c, rest⟩
    · exact ⟨{ sess with last_seen := now },
        by simp [poll, h0, h, hq, alookup_aset_self], rfl⟩
    · exact ⟨{ sess with last_seen := now, command_queue := rest },
        by simp [poll, h0, h, hq, alookup_aset_self], rfl⟩
  · intro cid now s h
    by_cases h0 : cid = "" <;> simp [poll, h0, h]
  · intro cid cmd out s h
    by_cases h0 : cid = "" <;> simp [reportResult, h0, h]
  · intro cid sender msg fid now s h
    by_cases h0 : cid = "" <;> simp [chat_send, h0, h]
  · intro cid cmd isf hf fn b now s ha h
    simp [upload_file, ha, h]
  · intro cid cmd out s sess h0 h
    by_cases hc : cmd = ""
    · exact ⟨sess, by simp [reportResult, h0, h, hc], rfl⟩
    · exact ⟨{ sess with results := aset cmd out sess.results },
        by simp [reportResult, h0, h, hc, alookup_aset_self], rfl⟩
  · intro cid sender msg fid now s sess h0 h
    by_cases hs : sender = "admin"
    · subst hs
      exact ⟨⟨sess.ip, sess.last_seen, sess.command_queue ++ [⟨fid, "chat_msg", msg⟩],
          sess.results, sess.streaming, sess.chat ++ [⟨"admin", msg, now⟩]⟩,
        by simp [chat_send, h0, h, alookup_aset_self], rfl⟩
    · exact ⟨{ sess with chat := sess.chat ++ [⟨sender, msg, now⟩] },
        by simp [chat_send, h0, h, hs, alookup_aset_self], rfl⟩
  · intro cid cmd isf hf fn b now s sess h
    by_cases h0 : cid = ""
    · subst h0
      exact ⟨sess, by simpa [upload_file] using h, rfl⟩
    · by_cases h1 : hf
      · by_cases h2 : fn = ""
        · exact ⟨sess, by simp [upload_file, h0, h1, h2, h], rfl⟩
        · by_cases h3 : isf
          · exact ⟨sess, by simp [upload_file, h0, h1, h2, h3, h], rfl⟩
          · by_cases h4 : cmd = ""
            · exact ⟨sess, by simp [upload_file, h0, h1, h2, h3, h4, h], rfl⟩
            · exact ⟨⟨sess.ip, sess.last_seen, sess.command_queue,
                aset cmd ("FILE_UPLOADED:" ++ (cid ++ "_" ++ toString now ++ "_" ++ fn))
                  sess.results, sess.streaming, sess.chat⟩,
                by simp [upload_file, h0, h1, h2, h3, h4, h, alookup_aset_self], rfl⟩
      · exact ⟨sess, by simp [upload_file, h0, h1, h], rfl⟩

/-- C2, witness for `heartbeat_semantics`: concrete calls on a session
registered at time 5 — a poll at time 9 moves `last_seen` to 9; a poll,
report, chat and upload against the unknown id `"zz"` all fail. -/
theorem heartbeat_semantics_witness :
    (∃ sess', alookup "a"
        ((poll "a" 9 (register "" "ip" "a" 5 initState).2).2).clients = some sess' ∧
      sess'.last_seen = 9) ∧
    (poll "zz" 9 (register "" "ip" "a" 5 initState).2).1 = PollResult.unknown ∧
    (reportResult "zz" "c" "o" (register "" "ip" "a" 5 initState).2).1 = Ack.unknown ∧
    (chat_send "zz" "admin" "hi" "k" 9 (register "" "ip" "a" 5 initState).2).1 =
      Ack.unknown ∧
    (upload_file "zz" "c" true true "f" [1] 9
      (register "" "ip" "a" 5 initState).2).1 = UploadResult.unknown ∧
    (∃ sess', alookup "a"
        ((reportResult "a" "c" "o" (register "" "ip" "a" 5 initState).2).2).clients =
        some sess' ∧ sess'.last_seen = 5) := by
  refine ⟨heartbeat_semantics.1 "a" 9 _ ⟨"ip", 5, [], [], false, []⟩ (by decide) (by decide),
    (heartbeat_semantics.2.1 "zz" 9 _ (by decide)).1,
    (heartbeat_semantics.2.2.1 "zz" "c" "o" _ (by decide)).1,
    heartbeat_semantics.2.2.2.1 "zz" "admin" "hi" "k" 9 _ (by decide),
    heartbeat_semantics.2.2.2.2.1 "zz" "c" true true "f" [1] 9 _ (by decide) (by decide),
    ?_⟩
  have h := heartbeat_semantics.2.2.2.2.2.1 "a" "c" "o"
    (register "" "ip" "a" 5 initState).2 ⟨"ip", 5, [], [], false, []⟩ (by decide) (by decide)
  simpa using h

/-- C2, counterexample: the claim says every successful `reportResult`
refreshes the session's heartbeat to the current time; in the code the
`result` handler never touches `last_seen`, so a session registered at
time 5 still shows `last_seen = 5` after a successful report made later. -/
theorem heartbeat_not_refreshed_cex :
    (reportResult "a" "c" "out" (register "" "ip" "a" 5 initState).2).1 = Ack.ok ∧
    (alookup "a"
        ((reportResult "a" "c" "out" (register "" "ip" "a" 5 initState).2).2).clients).map
      Session.last_seen = some 5 := by
  decide

/-- C3 (confirmed): for a live session, a sequence of enqueues followed
by successive polls returns the commands in exactly the order enqueued
(after first draining whatever was already queued); a poll on an empty
queue returns none; and a poll on a non-empty queue returns the head,
leaves exactly the tail, and the dequeued command is never returned by
any later poll. -/
theorem fifo_delivery (cid : String) (now : Nat) (s : ServerState) (sess : Session)
    (h0 : cid ≠ "") (h : alookup cid s.clients = some sess) :
    (∀ specs : List CmdSpec,
      (drainPolls cid now (sess.command_queue.length + specs.length)
        (enqueueAll cid specs s)).1 =
        sess.command_queue ++ specs.map CmdSpec.toCommand) ∧
    (sess.command_queue = [] → (poll cid now s).1 = .noCommand) ∧
    (∀ c rest, sess.command_queue = c :: rest →
      (poll cid now s).1 = .command c ∧
      (∃ sess', alookup cid ((poll cid now s).2).clients = some sess' ∧
        sess'.command_queue = rest) ∧
      (c ∉ rest → c ∉ (drainPolls cid now rest.length ((poll cid now s).2)).1)) := by
  refine ⟨?_, ?_, ?_⟩
  · intro specs
    obtain ⟨sess', h', hq⟩ := enqueueAll_queue h0 specs s sess h
    have hdr := drainPolls_drains cid now h0 _ _ _ h' hq
    rw [List.length_append, List.length_map] at hdr
    exact hdr
  · intro hq
    simp [poll, h0, h, hq]
  · intro c rest hq
    have hpoll : poll cid now s =
        (.command c,
          ⟨aset cid ⟨sess.ip, now, rest, sess.results, sess.streaming, sess.chat⟩ s.clients,
           s.streaming_clients⟩) := by
      simp [poll, h0, h, hq]
    have hnext : alookup cid
        (aset cid ⟨sess.ip, now, rest, sess.results, sess.streaming, sess.chat⟩ s.clients) =
        some ⟨sess.ip, now, rest, sess.results, sess.streaming, sess.chat⟩ :=
      alookup_aset_self _ _ _
    refine ⟨by rw [hpoll], ⟨_, by rw [hpoll]; exact hnext, rfl⟩, ?_⟩
    intro hc
    rw [hpoll]
    rw [drainPolls_drains cid now h0 rest
      ⟨aset cid ⟨sess.ip, now, rest, sess.results, sess.streaming, sess.chat⟩ s.clients,
        s.streaming_clients⟩
      ⟨sess.ip, now, rest, sess.results, sess.streaming, sess.chat⟩ hnext rfl]
    exact hc

/-- C3, witness for `fifo_delivery`: two commands enqueued on a fresh
session drain back in order, and a poll on the empty queue returns
none. -/
theorem fifo_delivery_witness :
    (drainPolls "a" 9 2 (enqueueAll "a" [⟨"c1", "shell", "p1"⟩, ⟨"c2", "screen", "p2"⟩]
      (register "" "ip" "a" 0 initState).2)).1 =
      [⟨"c1", "shell", "p1"⟩, ⟨"c2", "screen", "p2"⟩] ∧
    (poll "a" 9 (register "" "ip" "a" 0 initState).2).1 = PollResult.noCommand := by
  have h := fifo_delivery "a" 9 (register "" "ip" "a" 0 initState).2
    ⟨"ip", 0, [], [], false, []⟩ (by decide) (by decide)
  exact ⟨h.1 [⟨"c1", "shell", "p1"⟩, ⟨"c2", "screen", "p2"⟩], h.2.1 rfl⟩

/-- C4 (amended): a `reportResult` on a live session overwrites any
prior result stored under that command id (last write wins) and leaves
the other ids alone; and when a command id is held by at most one live
session — the intended situation, command ids being generated from a
large random space — `consumeResult` returns the stored payload (the one
written by the most recent set) and removes it, so a second consume with
no intervening set reports pending.  When the same id has been reported
into several sessions, the consume instead pops the copy held by the
earliest-registered session, which need not be the most recent write
(see the counterexample). -/
theorem result_store_semantics :
    (∀ (cid cmd p : String) (s : ServerState) (sess : Session),
      cid ≠ "" → cmd ≠ "" → alookup cid s.clients = some sess →
      ∃ sess', alookup cid ((reportResult cid cmd p s).2).clients = some sess' ∧
        alookup cmd sess'.results = some p ∧
        ∀ c', c' ≠ cmd → alookup c' sess'.results = alookup c' sess.results) ∧
    (∀ (cmd out cid : String) (sess : Session) (l1 l2 : List (String × Session))
        (strm : List (String × StreamEntry)),
      (∀ p ∈ l1, alookup cmd p.2.results = none) →
      (∀ p ∈ l2, alookup cmd p.2.results = none) →
      alookup cmd sess.results = some out →
      (sess.results.map Prod.fst).Nodup →
      (admin_response cmd ⟨l1 ++ (cid, sess) :: l2, strm⟩).1 = .done out ∧
      (admin_response cmd
        ((admin_response cmd ⟨l1 ++ (cid, sess) :: l2, strm⟩).2)).1 = .pending) := by
  constructor
  · intro cid cmd p s sess h0 hc h
    refine ⟨⟨sess.ip, sess.last_seen, sess.command_queue, aset cmd p sess.results,
      sess.streaming, sess.chat⟩,
      by simp [reportResult, h0, hc, h, alookup_aset_self], ?_, ?_⟩
    · exact alookup_aset_self _ _ _
    · intro c' hne
      exact alookup_aset_ne _ _ (Ne.symm hne)
  · intro cmd out cid sess l1 l2 strm h1 h2 hres nd
    have hscan := consumeScan_split cid l1 l2 h1 hres
    constructor
    · simp [admin_response, hscan]
    · have hall : ∀ p ∈ l1 ++
          (cid, { sess with results := aerase cmd sess.results }) :: l2,
          alookup cmd p.2.results = none := by
        intro p hp
        rcases List.mem_append.mp hp with hp | hp
        · exact h1 p hp
        · rcases List.mem_cons.mp hp with hp | hp
          · rw [hp]
            exact alookup_aerase_self _ nd
          · exact h2 p hp
      have hscan2 := consumeScan_eq_none _ hall
      simp [admin_response, hscan, hscan2]

/-- C4, witness for `result_store_semantics`: one session `"B"` holds a
result for `"x"`; consuming returns it, a second consume is pending, and
a report on a live session overwrites the stored payload. -/
theorem result_store_witness :
    (admin_response "x" ⟨[("A", ⟨"ipA", 0, [], [], false, []⟩),
        ("B", ⟨"ipB", 0, [], [("x", "p2")], false, []⟩)], []⟩).1 =
      ConsumeResult.done "p2" ∧
    (admin_response "x" ((admin_response "x" ⟨[("A", ⟨"ipA", 0, [], [], false, []⟩),
        ("B", ⟨"ipB", 0, [], [("x", "p2")], false, []⟩)], []⟩).2)).1 =
      ConsumeResult.pending ∧
    (∃ sess', alookup "a" ((reportResult "a" "x" "new"
        ⟨[("a", ⟨"ip", 0, [], [("x", "old")], false, []⟩)], []⟩).2).clients = some sess' ∧
      alookup "x" sess'.results = some "new") := by
  have h := result_store_semantics.2 "x" "p2" "B" ⟨"ipB", 0, [], [("x", "p2")], false, []⟩
    [("A", ⟨"ipA", 0, [], [], false, []⟩)] [] [] (by decide) (by decide) (by decide) (by decide)
  have h2 := result_store_semantics.1 "a" "x" "new"
    ⟨[("a", ⟨"ip", 0, [], [("x", "old")], false, []⟩)], []⟩
    ⟨"ip", 0, [], [("x", "old")], false, []⟩ (by decide) (by decide) (by decide)
  obtain ⟨sess', hs1, hs2, -⟩ := h2
  exact ⟨h.1, h.2, sess', hs1, hs2⟩

/-- C4, counterexample: agents choose the command ids they report under,
so two sessions can hold a result for the same id.  Session `"A"`
registers first, reports `"p1"` for `"x"`; session `"B"` then reports
`"p2"` for the same `"x"` (the most recent set).  `consumeResult "x"`
scans clients in registration order and returns `"p1"`, not the payload
of the most recent set, and the second consume returns `"p2"` instead of
pending. -/
theorem consume_stale_duplicate_cex :
    (admin_response "x" ((reportResult "B" "x" "p2" ((reportResult "A" "x" "p1"
        ((register "" "ipB" "B" 0 ((register "" "ipA" "A" 0 initState).2)).2)).2)).2)).1 =
      ConsumeResult.done "p1" ∧
    (admin_response "x" ((admin_response "x" ((reportResult "B" "x" "p2"
        ((reportResult "A" "x" "p1" ((register "" "ipB" "B" 0
        ((register "" "ipA" "A" 0 initState).2)).2)).2)).2)).2)).1 =
      ConsumeResult.done "p2" ∧
    "p1" ≠ "p2" := by
  decide

/-- C5 (confirmed): a session silent for more than 60 time units is
removed by the sweep at the start of `listSessions`: it does not appear
in the returned list, its client record and streaming entry are gone
from the swept state, and every subsequent operation that could reach
its queue, results, chat or stream frame fails or returns the empty
default. -/
theorem expiry_sweep (now : Nat) (s : ServerState) (cid : String) (sess : Session)
    (nd : (s.clients.map Prod.fst).Nodup)
    (h : alookup cid s.clients = some sess)
    (hd : 60 < now - sess.last_seen) :
    (∀ e ∈ (admin_list now s).1, e.1 ≠ cid) ∧
    alookup cid ((admin_list now s).2).clients = none ∧
    alookup cid ((admin_list now s).2).streaming_clients = none ∧
    (∀ now2, (poll cid now2 ((admin_list now s).2)).1 = .unknown) ∧
    (∀ cmd out, (reportResult cid cmd out ((admin_list now s).2)).1 = .unknown) ∧
    (∀ sender msg fid now2,
      (chat_send cid sender msg fid now2 ((admin_list now s).2)).1 = .unknown) ∧
    chat_history cid ((admin_list now s).2) = [] ∧
    admin_stream_frame cid ((admin_list now s).2) = none ∧
    admin_stream_status cid ((admin_list now s).2) = false ∧
    (∀ t p f, (admin_command cid t p f ((admin_list now s).2)).1 = .notFound) := by
  have hmem : (cid, sess) ∈ s.clients := alookup_mem h
  have hc : alookup cid ((admin_list now s).2).clients = none := by
    have h2 := alookup_filter_of_some
      (fun p => decide ¬ 60 < now - p.2.last_seen) nd h
    simp only [admin_list, clean_clients] at h2 ⊢
    rw [h2]
    simp [hd]
  have hdead : cid ∈ ((s.clients.filter fun p => 60 < now - p.2.last_seen).map Prod.fst) := by
    refine List.mem_map.mpr ⟨(cid, sess), ?_, rfl⟩
    rw [List.mem_filter]
    exact ⟨hmem, by simpa using hd⟩
  have hs : alookup cid ((admin_list now s).2).streaming_clients = none := by
    rw [alookup_eq_none_iff]
    intro p hp hpk
    simp only [admin_list, clean_clients] at hp
    rw [List.mem_filter] at hp
    have := hp.2
    simp only [decide_eq_true_eq] at this
    exact this (hpk ▸ hdead)
  refine ⟨?_, hc, hs, ?_, ?_, ?_, ?_, ?_, ?_, ?_⟩
  · intro e he
    simp only [admin_list] at he
    obtain ⟨p, hp, hpe⟩ := List.mem_map.mp he
    simp only [clean_clients] at hp
    rw [List.mem_filter] at hp
    intro heq
    have hpk : p.1 = cid := by rw [← hpe] at heq; exact heq
    have : p = (cid, sess) := nodup_key_eq nd hp.1 hmem hpk
    rw [this] at hp
    have := hp.2
    simp only [decide_eq_true_eq] at this
    exact this (by simpa using hd)
  · intro now2
    by_cases h0 : cid = "" <;> simp [poll, h0, hc]
  · intro cmd out
    by_cases h0 : cid = "" <;> simp [reportResult, h0, hc]
  · intro sender msg fid now2
    by_cases h0 : cid = "" <;> simp [chat_send, h0, hc]
  · simp [chat_history, hc]
  · simp [admin_stream_frame, hs]
  · simp [admin_stream_status, hc]
  · intro t p f
    by_cases h0 : cid = "" <;> simp [admin_command, h0, hc]

/-- C5, witness for `expiry_sweep`: a session registered at time 0 that
pushed a frame at time 3 and is then listed at time 100 is swept — it is
absent from the registry, its stream frame is unreachable, and its chat
history reads empty. -/
theorem expiry_sweep_witness :
    alookup "a" ((admin_list 100 ((upload_file "a" "" true true "f" [9] 3
        ((register "" "ip" "a" 0 initState).2)).2)).2).clients = none ∧
    admin_stream_frame "a" ((admin_list 100 ((upload_file "a" "" true true "f" [9] 3
        ((register "" "ip" "a" 0 initState).2)).2)).2) = none ∧
    chat_history "a" ((admin_list 100 ((upload_file "a" "" true true "f" [9] 3
        ((register "" "ip" "a" 0 initState).2)).2)).2) = [] := by
  have h := expiry_sweep 100 ((upload_file "a" "" true true "f" [9] 3
      ((register "" "ip" "a" 0 initState).2)).2) "a" ⟨"ip", 0, [], [], false, []⟩
    (by decide) (by decide) (by decide)
  obtain ⟨-, h1, -, -, -, -, h7, h8, -, -⟩ := h
  exact ⟨h1, h8, h7⟩

/-- C6 (confirmed): enqueuing a `start_stream` command on a live session
sets its streaming flag (as read back by `getStreamingFlag`) to true and
creates the streaming entry when absent (keeping an existing one), and
enqueuing a `stop_stream` command sets the flag to false and discards
the streaming entry — in both cases the command is still sitting at the
tail of the queue, so the flag change is visible before any
poll/dequeue of that command. -/
theorem stream_toggle_at_enqueue (cid p1 p2 f1 f2 : String) (s : ServerState)
    (sess : Session) (h0 : cid ≠ "") (h : alookup cid s.clients = some sess) :
    (admin_stream_status cid ((admin_command cid "start_stream" p1 f1 s).2) = true ∧
      (∃ sess', alookup cid ((admin_command cid "start_stream" p1 f1 s).2).clients =
          some sess' ∧ sess'.streaming = true ∧
        sess'.command_queue = sess.command_queue ++ [⟨f1, "start_stream", p1⟩]) ∧
      (alookup cid s.streaming_clients = none →
        alookup cid ((admin_command cid "start_stream" p1 f1 s).2).streaming_clients =
          some ⟨none, 0⟩) ∧
      (∀ e, alookup cid s.streaming_clients = some e →
        ((admin_command cid "start_stream" p1 f1 s).2).streaming_clients =
          s.streaming_clients)) ∧
    (admin_stream_status cid ((admin_command cid "stop_stream" p2 f2 s).2) = false ∧
      (∃ sess', alookup cid ((admin_command cid "stop_stream" p2 f2 s).2).clients =
          some sess' ∧ sess'.streaming = false ∧
        sess'.command_queue = sess.command_queue ++ [⟨f2, "stop_stream", p2⟩]) ∧
      ((s.streaming_clients.map Prod.fst).Nodup →
        alookup cid ((admin_command cid "stop_stream" p2 f2 s).2).streaming_clients =
          none)) := by
  constructor
  · refine ⟨?_, ?_, ?_, ?_⟩
    · simp [admin_command, admin_stream_status, h0, h, alookup_aset_self]
    · exact ⟨⟨sess.ip, sess.last_seen, sess.command_queue ++ [⟨f1, "start_stream", p1⟩],
        sess.results, true, sess.chat⟩,
        by simp [admin_command, h0, h, alookup_aset_self], rfl, rfl⟩
    · intro he
      simp [admin_command, h0, h, he, alookup_aset_self]
    · intro e he
      simp [admin_command, h0, h, he]
  · refine ⟨?_, ?_, ?_⟩
    · simp [admin_command, admin_stream_status, h0, h, alookup_aset_self]
    · exact ⟨⟨sess.ip, sess.last_seen, sess.command_queue ++ [⟨f2, "stop_stream", p2⟩],
        sess.results, false, sess.chat⟩,
        by simp [admin_command, h0, h, alookup_aset_self], rfl, rfl⟩
    · intro nd
      simp only [admin_command, if_neg h0, h]
      simpa using alookup_aerase_self cid nd

/-- C6, witness for `stream_toggle_at_enqueue`: on a freshly registered
session, enqueuing `start_stream` makes the status read true and
creates the empty streaming entry; enqueuing `stop_stream` instead
leaves the status false. -/
theorem stream_toggle_witness :
    admin_stream_status "a" ((admin_command "a" "start_stream" "" "c9"
      ((register "" "ip" "a" 0 initState).2)).2) = true ∧
    alookup "a" ((admin_command "a" "start_stream" "" "c9"
      ((register "" "ip" "a" 0 initState).2)).2).streaming_clients = some ⟨none, 0⟩ ∧
    admin_stream_status "a" ((admin_command "a" "stop_stream" "" "ca"
      ((register "" "ip" "a" 0 initState).2)).2) = false := by
  have h := stream_toggle_at_enqueue "a" "" "" "c9" "ca"
    ((register "" "ip" "a" 0 initState).2) ⟨"ip", 0, [], [], false, []⟩
    (by decide) (by decide)
  exact ⟨h.1.1, h.1.2.2.1 (by decide), h.2.1⟩

/-- C7 (amended): for a live session (or the `ADMIN` sentinel),
`pushFrame` followed by `latestFrame` returns exactly the pushed bytes
for every NONEMPTY byte string, regardless of the session's streaming
flag, and a second push fully replaces the first — only the most recent
frame is retained.  Pushing the empty byte string is accepted and stored,
but `latestFrame` then reports no frame available, because the handler's
truthiness test treats empty bytes like a missing frame. -/
theorem frame_push_latest (cid cmdid fn : String) (b b2 : List Nat) (now now2 : Nat)
    (s : ServerState)
    (hok : cid = "ADMIN" ∨ (cid ≠ "" ∧ (alookup cid s.clients).isSome))
    (hfn : fn ≠ "") :
    (b ≠ [] →
      admin_stream_frame cid ((upload_file cid cmdid true true fn b now s).2) = some b) ∧
    (b2 ≠ [] →
      admin_stream_frame cid ((upload_file cid cmdid true true fn b2 now2
        ((upload_file cid cmdid true true fn b now s).2)).2) = some b2) ∧
    (∃ e, alookup cid ((upload_file cid cmdid true true fn b2 now2
        ((upload_file cid cmdid true true fn b now s).2)).2).streaming_clients = some e ∧
      e.last_frame = some b2) ∧
    (b = [] →
      admin_stream_frame cid ((upload_file cid cmdid true true fn b now s).2) = none ∧
      ∃ e, alookup cid ((upload_file cid cmdid true true fn b now s).2).streaming_clients =
        some e ∧ e.last_frame = some []) := by
  have hguard : ¬(¬cid = "ADMIN" ∧ (cid = "" ∨ alookup cid s.clients = none)) := by
    rcases hok with hok | ⟨h1, h2⟩
    · intro hg
      exact hg.1 hok
    · intro hg
      rcases hg.2 with hg2 | hg2
      · exact h1 hg2
      · rw [hg2] at h2
        simp at h2
  refine ⟨?_, ?_, ?_, ?_⟩
  · intro hb
    simp [upload_file, hguard, hfn, admin_stream_frame, alookup_aset_self, hb]
  · intro hb2
    simp [upload_file, hguard, hfn, admin_stream_frame, alookup_aset_self, hb2]
  · exact ⟨⟨some b2, now2⟩,
      by simp [upload_file, hguard, hfn, alookup_aset_self], rfl⟩
  · intro hb
    subst hb
    refine ⟨by simp [upload_file, hguard, hfn, admin_stream_frame, alookup_aset_self],
      ⟨some [], now⟩, by simp [upload_file, hguard, hfn, alookup_aset_self], rfl⟩

/-- C7, witness for `frame_push_latest`: on a live session whose
streaming flag was never enabled, pushing `[1, 2]` then reading returns
`[1, 2]`; pushing `[3]` on top returns `[3]` and only `[3]` is retained;
pushing the empty byte string stores it but reads back as no frame. -/
theorem frame_push_latest_witness :
    admin_stream_frame "a" ((upload_file "a" "" true true "f.jpg" [1, 2] 1
      ((register "" "ip" "a" 0 initState).2)).2) = some [1, 2] ∧
    admin_stream_frame "a" ((upload_file "a" "" true true "f.jpg" [3] 2
      ((upload_file "a" "" true true "f.jpg" [1, 2] 1
        ((register "" "ip" "a" 0 initState).2)).2)).2) = some [3] ∧
    (∃ e, alookup "a" ((upload_file "a" "" true true "f.jpg" [3] 2
        ((upload_file "a" "" true true "f.jpg" [1, 2] 1
          ((register "" "ip" "a" 0 initState).2)).2)).2).streaming_clients = some e ∧
      e.last_frame = some [3]) ∧
    admin_stream_frame "a" ((upload_file "a" "" true true "f.jpg" [] 1
      ((register "" "ip" "a" 0 initState).2)).2) = none := by
  have h := frame_push_latest "a" "" "f.jpg" [1, 2] [3] 1 2
    ((register "" "ip" "a" 0 initState).2) (Or.inr ⟨by decide, by decide⟩) (by decide)
  have h2 := frame_push_latest "a" "" "f.jpg" [] [3] 1 2
    ((register "" "ip" "a" 0 initState).2) (Or.inr ⟨by decide, by decide⟩) (by decide)
  exact ⟨h.1 (by decide), h.2.1 (by decide), h.2.2.1, (h2.2.2.2 rfl).1⟩

/-- C7, counterexample: the claim says a pushFrame/latestFrame pair
returns exactly the pushed bytes including the empty byte string; in
the code the push is accepted (`frame_received`) and the empty frame is
stored, yet `latestFrame` answers "no frame available" because
`if frame_data:` is falsy on `b''`. -/
theorem empty_frame_unavailable_cex :
    (upload_file "a" "" true true "f.jpg" [] 1
      ((register "" "ip" "a" 0 initState).2)).1 = UploadResult.frameReceived ∧
    (alookup "a" ((upload_file "a" "" true true "f.jpg" [] 1
      ((register "" "ip" "a" 0 initState).2)).2).streaming_clients).map
        StreamEntry.last_frame = some (some []) ∧
    admin_stream_frame "a" ((upload_file "a" "" true true "f.jpg" [] 1
      ((register "" "ip" "a" 0 initState).2)).2) = none := by
  decide

/-- C8 (confirmed): a `sendChat` on a live session whose sender role is
the controller side (`'admin'`) appends exactly one entry to the chat
log and exactly one `chat_msg` command, with params equal to the text,
at the tail of the queue; a `sendChat` with any other sender appends the
chat entry only and leaves the queue unchanged. -/
theorem chat_send_effects (cid msg fid : String) (now : Nat) (s : ServerState)
    (sess : Session) (h0 : cid ≠ "") (h : alookup cid s.clients = some sess) :
    (∃ sess', alookup cid ((chat_send cid "admin" msg fid now s).2).clients = some sess' ∧
      sess'.chat = sess.chat ++ [⟨"admin", msg, now⟩] ∧
      sess'.command_queue = sess.command_queue ++ [⟨fid, "chat_msg", msg⟩]) ∧
    (∀ sender, sender ≠ "admin" →
      ∃ sess', alookup cid ((chat_send cid sender msg fid now s).2).clients = some sess' ∧
        sess'.chat = sess.chat ++ [⟨sender, msg, now⟩] ∧
        sess'.command_queue = sess.command_queue) := by
  constructor
  · exact ⟨⟨sess.ip, sess.last_seen, sess.command_queue ++ [⟨fid, "chat_msg", msg⟩],
      sess.results, sess.streaming, sess.chat ++ [⟨"admin", msg, now⟩]⟩,
      by simp [chat_send, h0, h, alookup_aset_self], rfl, rfl⟩
  · intro sender hs
    exact ⟨⟨sess.ip, sess.last_seen, sess.command_queue, sess.results, sess.streaming,
      sess.chat ++ [⟨sender, msg, now⟩]⟩,
      by simp [chat_send, h0, h, hs, alookup_aset_self], rfl, rfl⟩

/-- C8, witness for `chat_send_effects`: on a fresh session, an admin
chat `"hi"` leaves a one-entry chat log and a one-command queue carrying
`"hi"`; a client chat leaves the queue empty. -/
theorem chat_send_effects_witness :
    (∃ sess', alookup "a" ((chat_send "a" "admin" "hi" "k1" 7
        ((register "" "ip" "a" 0 initState).2)).2).clients = some sess' ∧
      sess'.chat = [⟨"admin", "hi", 7⟩] ∧
      sess'.command_queue = [⟨"k1", "chat_msg", "hi"⟩]) ∧
    (∃ sess', alookup "a" ((chat_send "a" "client" "yo" "k2" 8
        ((register "" "ip" "a" 0 initState).2)).2).clients = some sess' ∧
      sess'.chat = [⟨"client", "yo", 8⟩] ∧
      sess'.command_queue = []) := by
  have h := chat_send_effects "a" "hi" "k1" 7 ((register "" "ip" "a" 0 initState).2)
    ⟨"ip", 0, [], [], false, []⟩ (by decide) (by decide)
  have h2 := chat_send_effects "a" "yo" "k2" 8 ((register "" "ip" "a" 0 initState).2)
    ⟨"ip", 0, [], [], false, []⟩ (by decide) (by decide)
  exact ⟨h.1, h2.2 "client" (by decide)⟩

/-- C9 (confirmed): `getChatHistory` returns the empty sequence, not an
error, for an id naming no live session, and the full chat log of a
live session.  It is embedded as a pure function of the state, as the
handler performs no mutation at all. -/
theorem chat_history_lenient (cid : String) (s : ServerState) :
    (alookup cid s.clients = none → chat_history cid s = []) ∧
    (∀ sess, alookup cid s.clients = some sess → chat_history cid s = sess.chat) := by
  constructor
  · intro h
    simp [chat_history, h]
  · intro sess h
    simp [chat_history, h]

/-- C9, witness for `chat_history_lenient`: an unknown id reads as the
empty history; a session with one chat entry reads back that entry. -/
theorem chat_history_lenient_witness :
    chat_history "nope" initState = [] ∧
    chat_history "a" ((chat_send "a" "admin" "hi" "k1" 7
      ((register "" "ip" "a" 0 initState).2)).2) = [⟨"admin", "hi", 7⟩] := by
  refine ⟨(chat_history_lenient "nope" initState).1 (by decide), ?_⟩
  exact (chat_history_lenient "a" _).2
    ⟨"ip", 0, [⟨"k1", "chat_msg", "hi"⟩], [], false, [⟨"admin", "hi", 7⟩]⟩ (by decide)

/-- C10 (confirmed): re-registering the identifier of a live session
that holds a cached (nonempty) stream frame resets the session's
streaming flag to false but leaves `streaming_clients` untouched, so
`getLatestFrame` still returns the bytes pushed before the
re-registration. -/
theorem reregister_keeps_frame (cid ip fid : String) (now : Nat) (s : ServerState)
    (sess : Session) (entry : StreamEntry) (b : List Nat)
    (h0 : cid ≠ "") (h : alookup cid s.clients = some sess)
    (he : alookup cid s.streaming_clients = some entry)
    (hf : entry.last_frame = some b) (hb : b ≠ []) :
    (register cid ip fid now s).1 = cid ∧
    admin_stream_status cid ((register cid ip fid now s).2) = false ∧
    admin_stream_frame cid s = some b ∧
    admin_stream_frame cid ((register cid ip fid now s).2) = some b := by
  refine ⟨by simp [register, h0, h], ?_, ?_, ?_⟩
  · simp [register, admin_stream_status, h0, h, alookup_aset_self]
  · simp [admin_stream_frame, he, hf, hb]
  · simp [register, admin_stream_frame, h0, h, he, hf, hb]

/-- C10, witness for `reregister_keeps_frame`: a session that started
streaming and pushed frame `[7]` re-registers under the same id; the
flag reads false afterwards but the frame still reads `[7]`. -/
theorem reregister_keeps_frame_witness :
    (register "a" "ip2" "zz" 9 ((upload_file "a" "" true true "f" [7] 2
      ((admin_command "a" "start_stream" "" "c9"
        ((register "" "ip" "a" 0 initState).2)).2)).2)).1 = "a" ∧
    admin_stream_status "a" ((register "a" "ip2" "zz" 9 ((upload_file "a" "" true true "f"
      [7] 2 ((admin_command "a" "start_stream" "" "c9"
        ((register "" "ip" "a" 0 initState).2)).2)).2)).2) = false ∧
    admin_stream_frame "a" ((register "a" "ip2" "zz" 9 ((upload_file "a" "" true true "f"
      [7] 2 ((admin_command "a" "start_stream" "" "c9"
        ((register "" "ip" "a" 0 initState).2)).2)).2)).2) = some [7] := by
  have h := reregister_keeps_frame "a" "ip2" "zz" 9
    ((upload_file "a" "" true true "f" [7] 2 ((admin_command "a" "start_stream" "" "c9"
      ((register "" "ip" "a" 0 initState).2)).2)).2)
    ⟨"ip", 0, [⟨"c9", "start_stream", ""⟩], [], true, []⟩ ⟨some [7], 2⟩ [7]
    (by decide) (by decide) (by decide) (by decide) (by decide)
  exact ⟨h.1, h.2.1, h.2.2.2⟩

end Server
